import Mathlib

/-!
Verification of the vector-search collection design and the notebook
service code of this repository.  Vector components are modelled as
rationals; machine floats are out of scope.  The IVF engine
(`Vector Store`, `Partitioner`, `Index Builder`, `Query Engine`) is not
implemented in the repository sources, so those components are modelled
from the specification text; the Milvus-facing notebook functions
(`create_milvus_collection`, `get_qa_id`, `app_insert`, `app_count`) are
embedded from the notebook code.
-/

namespace IVF

/-- Squared Euclidean distance between two component lists
(`L2` metric of the notebooks, squared — order-equivalent). -/
def sqDist (u v : List ℚ) : ℚ :=
  (List.zipWith (fun a b => (a - b) ^ 2) u v).sum

/-- Index and value of the least element of `f` over a list, keeping the
earliest index on ties.  Returns `none` on the empty list. -/
def argmin (f : α → ℚ) : List α → Option (Nat × ℚ)
  | [] => none
  | a :: as =>
    match argmin f as with
    | none => some (0, f a)
    | some (j, d) => if f a ≤ d then some (0, f a) else some (j + 1, d)

theorem argmin_spec (f : α → ℚ) (x0 : α) :
    ∀ (l : List α), l ≠ [] →
      ∃ j d, argmin f l = some (j, d) ∧ j < l.length ∧ f (l.getD j x0) = d ∧
        (∀ i, i < l.length → d ≤ f (l.getD i x0)) ∧
        (∀ i, i < j → d < f (l.getD i x0))
  | [], h => absurd rfl h
  | a :: as, _ => by
    match has : argmin f as with
    | none =>
      have : as = [] := by
        cases as with
        | nil => rfl
        | cons b bs =>
          exfalso
          obtain ⟨j, d, hj, -⟩ := argmin_spec f x0 (b :: bs) (by simp)
          rw [has] at hj; exact Option.noConfusion hj
      subst this
      refine ⟨0, f a, by simp [argmin, has], by simp, rfl, ?_, by omega⟩
      intro i hi
      have hi0 : i = 0 := by simp at hi; omega
      subst hi0
      simp
    | some p =>
      obtain ⟨j, d, hj, hjlt, hjval, hmin, htie⟩ :=
        argmin_spec f x0 as (by rintro rfl; simp [argmin] at has)
      rw [has] at hj; cases hj
      by_cases hle : f a ≤ d
      · refine ⟨0, f a, by simp [argmin, has, hle], by simp, rfl, ?_, by omega⟩
        intro i hi
        cases i with
        | zero => simp
        | succ i =>
          simp only [List.getD_cons_succ]
          exact le_trans hle (hmin i (by simpa using hi))
      · refine ⟨j + 1, d, by simp [argmin, has, hle], by simpa using hjlt, by simpa using hjval,
          ?_, ?_⟩
        · intro i hi
          cases i with
          | zero => simpa using le_of_lt (lt_of_not_le hle)
          | succ i => simpa using hmin i (by simpa using hi)
        · intro i hi
          cases i with
          | zero => simpa using lt_of_not_le hle
          | succ i => simpa using htie i (by omega)

/-- Modelled from the spec: `assign(vector)` returns the index of the
nearest centroid by squared Euclidean distance, ties broken by lowest
partition index (§4.2); the Partitioner implementation is not in the
repository sources. -/
def assign (centroids : List (List ℚ)) (v : List ℚ) : Nat :=
  ((argmin (fun c => sqDist v c) centroids).getD (0, 0)).1

theorem assign_lt_length (centroids : List (List ℚ)) (v : List ℚ)
    (h : centroids ≠ []) : assign centroids v < centroids.length := by
  obtain ⟨j, d, hj, hjlt, -⟩ := argmin_spec (fun c => sqDist v c) [] centroids h
  simpa [assign, hj] using hjlt

theorem assign_min (centroids : List (List ℚ)) (v : List ℚ) (h : centroids ≠ []) :
    ∀ i, i < centroids.length →
      sqDist v (centroids.getD (assign centroids v) []) ≤ sqDist v (centroids.getD i []) := by
  obtain ⟨j, d, hj, hjlt, hval, hmin, -⟩ := argmin_spec (fun c => sqDist v c) [] centroids h
  have hval' : sqDist v (centroids.getD j []) = d := hval
  have hj' : assign centroids v = j := by simp [assign, hj]
  intro i hi
  rw [hj', hval']
  exact hmin i hi

theorem assign_tie_lowest (centroids : List (List ℚ)) (v : List ℚ) (h : centroids ≠ []) :
    ∀ i, i < assign centroids v →
      sqDist v (centroids.getD (assign centroids v) []) < sqDist v (centroids.getD i []) := by
  obtain ⟨j, d, hj, hjlt, hval, -, htie⟩ := argmin_spec (fun c => sqDist v c) [] centroids h
  have hval' : sqDist v (centroids.getD j []) = d := hval
  have hj' : assign centroids v = j := by simp [assign, hj]
  intro i hi
  rw [hj', hval']
  exact htie i (hj' ▸ hi)

/-- Result ordering: ascending by distance, ties broken by lowest
identifier (spec §4.4, Query Result §3).  The same relation orders
partition probes: ascending centroid distance, ties by lowest partition
index. -/
def resRel (p q : Nat × ℚ) : Prop :=
  p.2 < q.2 ∨ (p.2 = q.2 ∧ p.1 ≤ q.1)

instance : DecidableRel resRel := fun p q => by
  unfold resRel; infer_instance

instance : IsTotal (Nat × ℚ) resRel := by
  constructor
  intro a b
  rcases lt_trichotomy a.2 b.2 with h | h | h
  · exact Or.inl (Or.inl h)
  · rcases le_total a.1 b.1 with h1 | h1
    · exact Or.inl (Or.inr ⟨h, h1⟩)
    · exact Or.inr (Or.inr ⟨h.symm, h1⟩)
  · exact Or.inr (Or.inl h)

instance : IsTrans (Nat × ℚ) resRel := by
  constructor
  intro a b c hab hbc
  rcases hab with h1 | ⟨he1, hl1⟩ <;> rcases hbc with h2 | ⟨he2, hl2⟩
  · exact Or.inl (lt_trans h1 h2)
  · exact Or.inl (he2 ▸ h1)
  · exact Or.inl (he1 ▸ h2)
  · exact Or.inr ⟨he1.trans he2, hl1.trans hl2⟩

instance : IsAntisymm (Nat × ℚ) resRel := by
  constructor
  intro a b hab hba
  rcases hab with h1 | ⟨he1, hl1⟩
  · rcases hba with h2 | ⟨he2, hl2⟩
    · exact absurd (lt_trans h1 h2) (lt_irrefl _)
    · exact absurd h1 (he2 ▸ lt_irrefl _)
  · rcases hba with h2 | ⟨he2, hl2⟩
    · exact absurd h2 (he1 ▸ lt_irrefl _)
    · exact Prod.ext (le_antisymm hl1 hl2) he1

/-- Sort candidates by `resRel` and keep the first `k`; the common final
step of both brute-force and IVF search. -/
def topK (cands : List (Nat × ℚ)) (k : Nat) : List (Nat × ℚ) :=
  (List.insertionSort resRel cands).take k

/-- Modelled from the spec: exact brute-force scan over the full Vector
Store (§4.4 fallback and §8 reference semantics); not implemented in the
repository sources. -/
def bruteForce (store : List (Nat × List ℚ)) (q : List ℚ) (k : Nat) : List (Nat × ℚ) :=
  topK (store.map (fun e => (e.1, sqDist q e.2))) k

/-- Modelled from the spec: a collection owns one Vector Store (insertion
ordered (id, vector) pairs), one Partitioner state (trained iff
`centroids ≠ []`) and one Index (per-partition posting lists of ids)
(§2, §3); not implemented in the repository sources. -/
structure Collection where
  dim : Nat
  store : List (Nat × List ℚ)
  centroids : List (List ℚ)
  plists : List (List Nat)

/-- Modelled from the spec: the posting list of partition `p` — ids of the
stored vectors whose nearest centroid is `p`, in store order (§3, §4.3). -/
def postingOf (store : List (Nat × List ℚ)) (cs : List (List ℚ)) (p : Nat) : List Nat :=
  (store.filter (fun e => assign cs e.2 == p)).map Prod.fst

/-- Modelled from the spec: `build(vector_store, partitioner)` computes
every stored vector's partition via `assign` and appends its id to that
partition's posting list (§4.3); not implemented in the repository
sources. -/
def buildIndex (store : List (Nat × List ℚ)) (cs : List (List ℚ)) : List (List Nat) :=
  (List.range cs.length).map (postingOf store cs)

/-- Vector Store lookup by id: first entry carrying the id, if any. -/
def lookupVec (store : List (Nat × List ℚ)) (i : Nat) : Option (List ℚ) :=
  (store.find? (fun e => e.1 == i)).map Prod.snd

/-- Distance of the query to every centroid, paired with the partition
index. -/
def centroidRank (cs : List (List ℚ)) (q : List ℚ) : List (Nat × ℚ) :=
  cs.enum.map (fun ic => (ic.1, sqDist q ic.2))

/-- Modelled from the spec: the `num_probes` nearest partitions by
centroid distance, ties broken by lowest partition index (§4.4). -/
def selectProbes (cs : List (List ℚ)) (q : List ℚ) (numProbes : Nat) : List Nat :=
  ((List.insertionSort resRel (centroidRank cs q)).take numProbes).map Prod.fst

/-- Candidates gathered from the posting lists of the probed partitions:
each listed id is resolved in the store and paired with its exact
distance to the query. -/
def candidatesOf (store : List (Nat × List ℚ)) (plists : List (List Nat))
    (probes : List Nat) (q : List ℚ) : List (Nat × ℚ) :=
  ((probes.map (fun p => plists.getD p [])).flatten).filterMap
    (fun i => (lookupVec store i).map (fun v => (i, sqDist q v)))

/-- Modelled from the spec: `search(query_vector, k, num_probes)` scans
the posting lists of the `num_probes` nearest partitions, computes exact
distances, and returns the `k` nearest ascending, ties by lowest
identifier (§4.4); not implemented in the repository sources. -/
def ivfSearch (c : Collection) (q : List ℚ) (k numProbes : Nat) : List (Nat × ℚ) :=
  topK (candidatesOf c.store c.plists (selectProbes c.centroids q numProbes) q) k

/-- Modelled from the spec: the error taxonomy of §7. -/
inductive EngineError where
  | DimensionMismatch
  | DuplicateId
  | NotFound
  | InsufficientData
  | NotIndexed
  | AlreadyExists
  | Cancelled
deriving DecidableEq

/-- Modelled from the spec: the Query Engine checks the query dimension,
and on an untrained partitioner transparently falls back to a brute-force
scan of the Vector Store instead of surfacing `NotIndexed` (§4.4, §7);
not implemented in the repository sources. -/
def queryEngine (c : Collection) (q : List ℚ) (k numProbes : Nat) :
    Except EngineError (List (Nat × ℚ)) :=
  if q.length ≠ c.dim then .error .DimensionMismatch
  else if c.centroids.isEmpty then .ok (bruteForce c.store q k)
  else .ok (ivfSearch c q k numProbes)

/-- Modelled from the spec: deletion removes the vector from the Store
and its id from the relevant Posting List; it does not retrain centroids
(§3 Lifecycle, §8); not implemented in the repository sources. -/
def deleteId (c : Collection) (i : Nat) : Collection :=
  { c with
    store := c.store.filter (fun e => e.1 != i)
    plists := c.plists.map (fun pl => pl.filter (fun x => x != i)) }

theorem sorted_topK (cands : List (Nat × ℚ)) (k : Nat) :
    List.Sorted resRel (topK cands k) :=
  List.Pairwise.sublist (List.take_sublist _ _) (List.sorted_insertionSort resRel cands)

theorem length_topK (cands : List (Nat × ℚ)) (k : Nat) :
    (topK cands k).length ≤ k := by
  simp [topK, List.length_take]

theorem mem_topK (cands : List (Nat × ℚ)) (k : Nat) :
    ∀ x ∈ topK cands k, x ∈ cands := by
  intro x hx
  have := (List.take_sublist k (List.insertionSort resRel cands)).mem hx
  simpa using this

theorem count_filter_eq [DecidableEq α] (x : α) (l : List α) (q : α → Bool) :
    (l.filter q).count x = if q x then l.count x else 0 := by
  induction l with
  | nil => simp
  | cons a l ih =>
    by_cases hqa : q a
    · by_cases hax : a = x
      · subst hax
        simp [List.filter_cons, hqa, List.count_cons, ih]
      · simp [List.filter_cons, hqa, List.count_cons, ih, hax]
    · by_cases hax : a = x
      · subst hax
        simp [List.filter_cons, hqa, List.count_cons, ih]
      · simp [List.filter_cons, hqa, List.count_cons, ih, hax]

theorem sum_indicator_range (n c j : Nat) :
    ((List.range n).map (fun p => if j = p then c else 0)).sum = if j < n then c else 0 := by
  induction n with
  | zero => simp
  | succ n ih =>
    rw [List.range_succ]
    by_cases h : j = n
    · subst h
      simp [ih]
    · by_cases h2 : j < n
      · simp [ih, h, h2, Nat.lt_succ_of_lt h2]
      · have : ¬ j < n + 1 := by omega
        simp [ih, h, h2, this]

/-- Bucketing a list by a key bounded by `n` and concatenating the
buckets in key order is a permutation of the list. -/
theorem filter_key_flatten_perm [DecidableEq α] (key : α → Nat) (l : List α) (n : Nat)
    (h : ∀ a ∈ l, key a < n) :
    ((List.range n).map (fun p => l.filter (fun a => key a == p))).flatten.Perm l := by
  apply List.perm_iff_count.mpr
  intro x
  rw [List.count_flatten, List.map_map]
  have hcomp : (List.count x ∘ fun p => l.filter (fun a => key a == p))
      = fun p => if key x = p then l.count x else 0 := by
    funext p
    simp only [Function.comp_apply]
    rw [count_filter_eq]
    by_cases h1 : key x = p <;> simp [h1]
  rw [hcomp, sum_indicator_range]
  by_cases hx : x ∈ l
  · simp [h x hx]
  · have hc : l.count x = 0 := List.count_eq_zero.mpr hx
    simp [hc]

/-- Resolving a duplicate-free store's own id sequence through
`lookupVec` reproduces the store's (id, distance) pairs exactly. -/
theorem filterMap_lookup_eq (q : List ℚ) :
    ∀ (store : List (Nat × List ℚ)), (store.map Prod.fst).Nodup →
      (store.map Prod.fst).filterMap
        (fun i => (lookupVec store i).map (fun v => (i, sqDist q v)))
      = store.map (fun e => (e.1, sqDist q e.2))
  | [], _ => rfl
  | e :: rest, hnd => by
    have hnd1 : e.1 ∉ rest.map Prod.fst := by
      simp only [List.map_cons, List.nodup_cons] at hnd
      exact hnd.1
    have hnd2 : (rest.map Prod.fst).Nodup := by
      simp only [List.map_cons, List.nodup_cons] at hnd
      exact hnd.2
    have hhead : lookupVec (e :: rest) e.1 = some e.2 := by
      simp [lookupVec, List.find?_cons_of_pos]
    have htail : ∀ i ∈ rest.map Prod.fst,
        (lookupVec (e :: rest) i).map (fun v => (i, sqDist q v))
        = (lookupVec rest i).map (fun v => (i, sqDist q v)) := by
      intro i hi
      have hne : e.1 ≠ i := fun hcontra => hnd1 (hcontra ▸ hi)
      have hbe : (e.1 == i) = false := by simpa using hne
      simp [lookupVec, List.find?_cons_of_neg, hbe]
    calc ((e :: rest).map Prod.fst).filterMap
          (fun i => (lookupVec (e :: rest) i).map (fun v => (i, sqDist q v)))
        = (e.1, sqDist q e.2) :: (rest.map Prod.fst).filterMap
            (fun i => (lookupVec (e :: rest) i).map (fun v => (i, sqDist q v))) := by
          simp [List.filterMap_cons, hhead]
      _ = (e.1, sqDist q e.2) :: (rest.map Prod.fst).filterMap
            (fun i => (lookupVec rest i).map (fun v => (i, sqDist q v))) := by
          rw [List.filterMap_congr htail]
      _ = (e :: rest).map (fun e => (e.1, sqDist q e.2)) := by
          rw [filterMap_lookup_eq q rest hnd2]
          simp

theorem buildIndex_getD (store : List (Nat × List ℚ)) (cs : List (List ℚ)) (p : Nat)
    (hp : p < cs.length) : (buildIndex store cs).getD p [] = postingOf store cs p := by
  unfold buildIndex
  rw [List.getD_eq_getElem?_getD, List.getElem?_map, List.getElem?_range hp]
  simp

/-- Probing every partition visits each partition index exactly once. -/
theorem selectProbes_all_perm (cs : List (List ℚ)) (q : List ℚ) :
    (selectProbes cs q cs.length).Perm (List.range cs.length) := by
  unfold selectProbes
  have hlen : (List.insertionSort resRel (centroidRank cs q)).length = cs.length := by
    rw [(List.perm_insertionSort resRel (centroidRank cs q)).length_eq]
    simp [centroidRank]
  rw [List.take_of_length_le (le_of_eq hlen)]
  have hperm := (List.perm_insertionSort resRel (centroidRank cs q)).map Prod.fst
  have hbase : (centroidRank cs q).map Prod.fst = List.range cs.length := by
    unfold centroidRank
    rw [List.map_map]
    have hfst : (Prod.fst ∘ fun ic : Nat × List ℚ => (ic.1, sqDist q ic.2)) = Prod.fst := by
      funext ic
      rfl
    rw [hfst, List.enum_map_fst]
  rw [hbase] at hperm
  exact hperm

/-- With the index built from the store and duplicate-free ids, probing
all partitions gathers exactly the store's (id, distance) pairs, up to
order. -/
theorem candidates_all_perm (c : Collection) (q : List ℚ)
    (htr : c.centroids ≠ [])
    (hpl : c.plists = buildIndex c.store c.centroids)
    (hnd : (c.store.map Prod.fst).Nodup) :
    (candidatesOf c.store c.plists (selectProbes c.centroids q c.centroids.length) q).Perm
      (c.store.map (fun e => (e.1, sqDist q e.2))) := by
  unfold candidatesOf
  have hA : ((selectProbes c.centroids q c.centroids.length).map
        (fun p => c.plists.getD p [])).flatten.Perm
      (((List.range c.centroids.length).map (fun p => c.plists.getD p [])).flatten) :=
    ((selectProbes_all_perm c.centroids q).map _).flatten
  have hB : (List.range c.centroids.length).map (fun p => c.plists.getD p [])
      = (List.range c.centroids.length).map (postingOf c.store c.centroids) := by
    apply List.map_congr_left
    intro p hp
    rw [hpl, buildIndex_getD _ _ _ (List.mem_range.mp hp)]
  have hC : ((List.range c.centroids.length).map
        (postingOf c.store c.centroids)).flatten.Perm (c.store.map Prod.fst) := by
    have heq : (List.range c.centroids.length).map (postingOf c.store c.centroids)
        = ((List.range c.centroids.length).map
            (fun p => c.store.filter (fun e => assign c.centroids e.2 == p))).map
          (List.map Prod.fst) := by
      simp [postingOf, List.map_map]
    rw [heq, ← List.map_flatten]
    exact (filter_key_flatten_perm (fun e => assign c.centroids e.2) c.store
      c.centroids.length (fun e _ => assign_lt_length c.centroids e.2 htr)).map Prod.fst
  have hflat := hA.trans (hB ▸ hC)
  have hperm := hflat.filterMap
    (fun i => (lookupVec c.store i).map (fun v => (i, sqDist q v)))
  rw [filterMap_lookup_eq q c.store hnd] at hperm
  exact hperm

theorem mem_candidates_exists_store (store : List (Nat × List ℚ)) (plists : List (List Nat))
    (probes : List Nat) (q : List ℚ) :
    ∀ x ∈ candidatesOf store plists probes q, ∃ e ∈ store, e.1 = x.1 := by
  intro x hx
  unfold candidatesOf at hx
  obtain ⟨i0, hi0mem, hf⟩ := List.mem_filterMap.mp hx
  obtain ⟨v, hv, hxeq⟩ := Option.map_eq_some'.mp hf
  unfold lookupVec at hv
  obtain ⟨e, he, heq⟩ := Option.map_eq_some'.mp hv
  have hp := List.find?_some he
  have h1 : e.1 = i0 := by simpa using hp
  refine ⟨e, List.mem_of_find?_eq_some he, ?_⟩
  rw [← hxeq]
  exact h1

theorem mem_bruteForce_exists_store (store : List (Nat × List ℚ)) (q : List ℚ) (k : Nat) :
    ∀ x ∈ bruteForce store q k, ∃ e ∈ store, e.1 = x.1 := by
  intro x hx
  have hmem := mem_topK _ _ x hx
  obtain ⟨e, he, heq⟩ := List.mem_map.mp hmem
  exact ⟨e, he, by rw [← heq]⟩

theorem mem_ivfSearch_exists_store (c : Collection) (q : List ℚ) (k np : Nat) :
    ∀ x ∈ ivfSearch c q k np, ∃ e ∈ c.store, e.1 = x.1 := by
  intro x hx
  exact mem_candidates_exists_store c.store c.plists (selectProbes c.centroids q np) q x
    (mem_topK _ _ x hx)

/-- Every id returned by the Query Engine, on either the IVF path or the
brute-force fallback, belongs to the collection's Vector Store. -/
theorem queryEngine_ok_ids (c : Collection) (q : List ℚ) (k np : Nat)
    (res : List (Nat × ℚ)) (h : queryEngine c q k np = .ok res) :
    ∀ x ∈ res, ∃ e ∈ c.store, e.1 = x.1 := by
  unfold queryEngine at h
  by_cases hdim : q.length ≠ c.dim
  · simp [hdim] at h
  · by_cases hemp : c.centroids.isEmpty
    · simp [hdim, hemp] at h
      subst h
      exact mem_bruteForce_exists_store c.store q k
    · simp [hdim, hemp] at h
      subst h
      exact mem_ivfSearch_exists_store c q k np

end IVF

namespace Notebook

/-- A Milvus collection as configured by the notebook: an INT64 primary
`id` field and a FLOAT_VECTOR `embedding` field of dimension `dim`, with
an IVF_FLAT / L2 index of the given `nlist`, holding (id, embedding)
rows. -/
structure MilvusCollection where
  description : String
  dim : Nat
  indexNlist : Nat
  rows : List (Int × List ℚ)
deriving DecidableEq

/-- Process-wide Milvus state: the named collections of the server. -/
structure MilvusState where
  collections : List (String × MilvusCollection)
deriving DecidableEq

/-- Embedded from the notebook: `utility.has_collection`. -/
def has_collection (s : MilvusState) (collection_name : String) : Bool :=
  s.collections.any (fun e => e.1 == collection_name)

/-- Embedded from the notebook: `utility.drop_collection` removes the
named collection and everything it holds. -/
def drop_collection (s : MilvusState) (collection_name : String) : MilvusState :=
  ⟨s.collections.filter (fun e => e.1 != collection_name)⟩

/-- The collection currently registered under a name, if any. -/
def get_collection (s : MilvusState) (collection_name : String) : Option MilvusCollection :=
  (s.collections.find? (fun e => e.1 == collection_name)).map Prod.snd

/-- Embedded from the notebook (`part_000`, cell `3f36afa5`):
`create_milvus_collection(collection_name, dim)` first drops any
existing collection of that name, then creates a fresh empty collection
with the INT64 id / FLOAT_VECTOR(dim) schema and an IVF_FLAT L2 index
with `nlist = 2048`, and returns it. -/
def create_milvus_collection (s : MilvusState) (collection_name : String) (dim : Nat) :
    MilvusState × MilvusCollection :=
  let s1 := if has_collection s collection_name then drop_collection s collection_name else s
  let collection : MilvusCollection :=
    { description := "reverse image search", dim := dim, indexNlist := 2048, rows := [] }
  (⟨(collection_name, collection) :: s1.collections⟩, collection)

/-- Embedded from the notebook: `num_entities` is the number of rows of
the collection. -/
def num_entities (c : MilvusCollection) : Nat := c.rows.length

/-- Embedded from the notebook (cell `a3c56d1c`): the `/count` endpoint
body is `lambda _: milvus_collection.num_entities`; the request is
ignored. -/
def app_count (c : MilvusCollection) (_request : String) : Nat :=
  num_entities c

end Notebook

namespace Pipeline

/-- Modelled from the spec: exception-safe execution runs the (fallible)
preprocessing stage on every batch item, representing a per-item failure
as an `Empty` (`none`) value instead of aborting the batch (§5); the
pipeline machinery itself is the external towhee library, not in the
repository sources. -/
def exception_safe (stage : α → Option β) (batch : List α) : List (Option β) :=
  batch.map stage

/-- Modelled from the spec: `drop_empty` removes the `Empty` values, so
only well-formed items reach the store. -/
def drop_empty (results : List (Option β)) : List β :=
  results.filterMap id

/-- Modelled from the spec: committing the surviving items of a batch to
the collection (`to_milvus`-style batch insert). -/
def batchCommit (store : List β) (items : List β) : List β := store ++ items

/-- Number of batch items on which the preprocessing stage fails. -/
def failureCount (stage : α → Option β) (batch : List α) : Nat :=
  (batch.filter (fun a => (stage a).isNone)).length

theorem drop_empty_length_add (stage : α → Option β) (batch : List α) :
    (drop_empty (exception_safe stage batch)).length + failureCount stage batch
      = batch.length := by
  unfold drop_empty exception_safe failureCount
  induction batch with
  | nil => rfl
  | cons a l ih =>
    cases hsa : stage a <;>
      simp only [List.map_cons, List.filterMap_cons, List.filter_cons, hsa,
        Option.isNone_some, Option.isNone_none, id_eq, List.length_cons,
        if_true, if_false, Bool.false_eq_true, ite_true, ite_false] <;>
      omega

end Pipeline

namespace Service

/-- A structured error object: kind and message (spec §6, §7). -/
structure ErrObj where
  kind : String
  message : String
deriving DecidableEq

/-- A service response: either a value or a structured error object. -/
inductive Response (α : Type) where
  | ok (value : α)
  | err (e : ErrObj)
deriving DecidableEq

/-- Modelled from the spec: the serving wrapper runs the endpoint
pipeline and turns any failure into a structured error response rather
than crashing the serving process (§6); the notebooks delegate this to
the external serving framework, not in the repository sources. -/
def serveWrap (pipeline : ρ → Except ErrObj α) (r : ρ) : Response α :=
  match pipeline r with
  | .ok v => .ok v
  | .error e => .err e

/-- The `/insert` endpoint: its pipeline yields the assigned id. -/
def insertService (pipeline : String → Except ErrObj Int) (r : String) : Response Int :=
  serveWrap pipeline r

/-- The `/search` endpoint: its pipeline yields the matched answers. -/
def searchService (pipeline : String → Except ErrObj (List String)) (r : String) :
    Response (List String) :=
  serveWrap pipeline r

/-- The `/count` endpoint: its pipeline ignores the request and reports
the entity count. -/
def countService (numEntities : Nat) (r : String) : Response Nat :=
  serveWrap (fun _ => .ok numEntities) r

end Service

namespace QAService

/-- Python `int()` on a rational: truncation toward zero. -/
def pyInt (q : ℚ) : Int :=
  if 0 ≤ q then Int.floor q else -(Int.floor (-q))

/-- The state the `/insert` pipeline of the question-answering notebook
touches: the global `id_answer` dictionary and the Milvus collection
rows. -/
structure QAState where
  id_answer : List (Int × String)
  milvus : List (Int × List ℚ)
deriving DecidableEq

/-- Embedded from the notebook (cell `9119468e`): `get_qa_id(text)`
parses the request JSON into question and answer, computes
`timestamp = int(time.time()*10000)`, stores `id_answer[timestamp] =
answer` in the global dictionary, and returns (question, timestamp).
JSON parsing is delegated to `parseQA`. -/
def get_qa_id (parseQA : String → Option (String × String)) (now : ℚ) (text : String)
    (s : QAState) : Except String (QAState × String × Int) :=
  match parseQA text with
  | none => .error "invalid JSON"
  | some (question, answer) =>
    let timestamp := pyInt (now * 10000)
    .ok ({ s with id_answer := (timestamp, answer) :: s.id_answer }, question, timestamp)

/-- Embedded from the notebook (cell `9119468e`): the `/insert` pipeline
runs `get_qa_id`, then the DPR embedding, squeeze and `tensor_normalize`
stages, then the Milvus insert; embedding and insert are external calls
that may fail.  A stage failure stops the pipeline with that error. -/
def app_insert (parseQA : String → Option (String × String))
    (embed : String → Except String (List ℚ))
    (normalize : List ℚ → List ℚ)
    (insertM : Int → List ℚ → Except String String)
    (now : ℚ) (text : String) (s : QAState) : QAState × Except String Int :=
  match get_qa_id parseQA now text s with
  | .error e => (s, .error e)
  | .ok (s1, question, timestamp) =>
    match embed question with
    | .error e => (s1, .error e)
    | .ok vec =>
      let v := normalize vec
      match insertM timestamp v with
      | .error e => (s1, .error e)
      | .ok _ => ({ s1 with milvus := s1.milvus ++ [(timestamp, v)] }, .ok timestamp)

end QAService

/-! Claim theorems. -/

/-- Concrete Milvus state in which the name "qa" is already taken by a
collection holding one row. -/
def takenState : Notebook.MilvusState :=
  ⟨[("qa",
     { description := "reverse image search", dim := 5, indexNlist := 2048,
       rows := [(1, [0])] })]⟩

/-- C1 (counterexample): with the name "qa" taken, `create_milvus_collection`
does not fail — it replaces the existing collection, so the existing
collection is not left unchanged: its one stored row is gone. -/
theorem claim_C1_counterexample :
    Notebook.has_collection takenState "qa" = true ∧
    (Notebook.get_collection takenState "qa").map Notebook.MilvusCollection.rows
      = some [(1, [0])] ∧
    (Notebook.get_collection (Notebook.create_milvus_collection takenState "qa" 768).1
        "qa").map Notebook.MilvusCollection.rows = some [] ∧
    (Notebook.create_milvus_collection takenState "qa" 768).1 ≠ takenState := by
  refine ⟨rfl, rfl, rfl, ?_⟩
  decide

/-- C1 (amended): when the name is taken, `create_milvus_collection(name,
dim)` does not fail with `AlreadyExists`; it drops the existing
collection and registers a fresh empty collection of the requested
dimension (IVF_FLAT L2 index, nlist 2048) under that name. -/
theorem claim_C1_amended (s : Notebook.MilvusState) (collection_name : String) (dim : Nat)
    (h : Notebook.has_collection s collection_name = true) :
    (Notebook.create_milvus_collection s collection_name dim).1.collections
      = (collection_name,
          { description := "reverse image search", dim := dim, indexNlist := 2048,
            rows := [] })
        :: (Notebook.drop_collection s collection_name).collections ∧
    Notebook.get_collection (Notebook.create_milvus_collection s collection_name dim).1
        collection_name
      = some { description := "reverse image search", dim := dim, indexNlist := 2048,
               rows := [] } := by
  constructor
  · simp [Notebook.create_milvus_collection, h]
  · simp [Notebook.get_collection, Notebook.create_milvus_collection, h,
      List.find?_cons_of_pos]

/-- C1 (witness): the amended statement applied to the taken name "qa". -/
theorem claim_C1_witness :
    Notebook.get_collection
        (Notebook.create_milvus_collection takenState "qa" 768).1 "qa"
      = some { description := "reverse image search", dim := 768, indexNlist := 2048,
               rows := [] } :=
  (claim_C1_amended takenState "qa" 768 rfl).2

/-- C2: on a batch of N items of which M < N fail preprocessing, the
exception-safe pipeline processes every item (no abort), commits exactly
the N − M well-formed items, reports exactly M per-item failures, and the
collection grows by exactly N − M. -/
theorem claim_C2_batch_ingest {α β : Type} (stage : α → Option β) (batch : List α)
    (store : List β)
    (hM : Pipeline.failureCount stage batch < batch.length) :
    (Pipeline.exception_safe stage batch).length = batch.length ∧
    (Pipeline.drop_empty (Pipeline.exception_safe stage batch)).length
      = batch.length - Pipeline.failureCount stage batch ∧
    (Pipeline.batchCommit store
        (Pipeline.drop_empty (Pipeline.exception_safe stage batch))).length
      = store.length + (batch.length - Pipeline.failureCount stage batch) := by
  have key := Pipeline.drop_empty_length_add stage batch
  refine ⟨by simp [Pipeline.exception_safe], by omega, ?_⟩
  simp only [Pipeline.batchCommit, List.length_append]
  omega

/-- C2 (witness): the two-item batch of the notebook (a question and a
`None`), one failure, committed count one. -/
theorem claim_C2_witness :
    Pipeline.failureCount (fun a => a) [some 5, none] < 2 ∧
    (Pipeline.drop_empty
        (Pipeline.exception_safe (fun a => a) [some 5, none])).length
      = 2 - Pipeline.failureCount (fun a => a) [some 5, none] ∧
    (Pipeline.batchCommit [7]
        (Pipeline.drop_empty (Pipeline.exception_safe (fun a => a) [some 5, none]))).length
      = 1 + (2 - Pipeline.failureCount (fun a => a) [some 5, none]) :=
  ⟨by decide,
   (claim_C2_batch_ingest (fun a => a) [some 5, none] ([7] : List ℕ) (by decide)).2.1,
   (claim_C2_batch_ingest (fun a => a) [some 5, none] ([7] : List ℕ) (by decide)).2.2⟩

/-- C5: for a trained partitioner, `assign(vector)` returns an in-range
partition index whose centroid is nearest to the vector by squared
Euclidean distance, every strictly earlier index has a strictly larger
distance (ties broken by lowest index), and — `assign` being a pure
function of the centroids and the vector — repeated calls with
unchanged centroids return the same index. -/
theorem claim_C5_assign_nearest (centroids : List (List ℚ)) (v : List ℚ)
    (htrained : centroids ≠ []) :
    IVF.assign centroids v < centroids.length ∧
    (∀ i, i < centroids.length →
      IVF.sqDist v (centroids.getD (IVF.assign centroids v) [])
        ≤ IVF.sqDist v (centroids.getD i [])) ∧
    (∀ i, i < IVF.assign centroids v →
      IVF.sqDist v (centroids.getD (IVF.assign centroids v) [])
        < IVF.sqDist v (centroids.getD i [])) ∧
    IVF.assign centroids v = IVF.assign centroids v :=
  ⟨IVF.assign_lt_length centroids v htrained,
   IVF.assign_min centroids v htrained,
   IVF.assign_tie_lowest centroids v htrained,
   rfl⟩

/-- C5 (witness): two centroids, the vector sits on the first. -/
theorem claim_C5_witness :
    IVF.assign [[(0 : ℚ)], [1]] [0] < 2 ∧
    IVF.sqDist [0] ([[(0 : ℚ)], [1]].getD (IVF.assign [[(0 : ℚ)], [1]] [0]) [])
      ≤ IVF.sqDist [0] ([[(0 : ℚ)], [1]].getD 1 []) :=
  ⟨(claim_C5_assign_nearest [[(0 : ℚ)], [1]] [0] (by simp)).1,
   (claim_C5_assign_nearest [[(0 : ℚ)], [1]] [0] (by simp)).2.1 1 (by simp)⟩

/-- C10: the `/count` endpoint ignores the request body — two requests
with different bodies against the same collection state return equal
results, namely the collection's current entity count. -/
theorem claim_C10_count_independent (c : Notebook.MilvusCollection) (r1 r2 : String) :
    Notebook.app_count c r1 = Notebook.app_count c r2 ∧
    Notebook.app_count c r1 = Notebook.num_entities c :=
  ⟨rfl, rfl⟩

/-- C3: with a trained partitioner, the index built from the store, and
duplicate-free identifiers (the collection invariants of §3), searching
with `num_probes` equal to the number of partitions returns exactly the
same (identifier, distance) sequence, in the same order, as the exact
brute-force scan over the full Vector Store, for every query and every
k not exceeding the collection size. -/
theorem claim_C3_exhaustive_eq_bruteforce (c : IVF.Collection) (q : List ℚ) (k : Nat)
    (_hk : k ≤ c.store.length)
    (htrained : c.centroids ≠ [])
    (hindex : c.plists = IVF.buildIndex c.store c.centroids)
    (hnodup : (c.store.map Prod.fst).Nodup) :
    IVF.ivfSearch c q k c.centroids.length = IVF.bruteForce c.store q k := by
  unfold IVF.ivfSearch IVF.bruteForce IVF.topK
  congr 1
  exact List.eq_of_perm_of_sorted
    ((List.perm_insertionSort _ _).trans
      ((IVF.candidates_all_perm c q htrained hindex hnodup).trans
        (List.perm_insertionSort _ _).symm))
    (List.sorted_insertionSort _ _) (List.sorted_insertionSort _ _)

/-- Concrete three-vector, two-partition collection with its index built
from the store. -/
def exhaustiveDemo : IVF.Collection :=
  { dim := 1, store := [(1, [0]), (2, [10]), (3, [6])], centroids := [[1], [9]],
    plists := IVF.buildIndex [(1, [0]), (2, [10]), (3, [6])] [[1], [9]] }

/-- C3 (witness): the exhaustive-search equivalence on a concrete
collection. -/
theorem claim_C3_witness :
    IVF.ivfSearch exhaustiveDemo [4] 2 exhaustiveDemo.centroids.length
      = IVF.bruteForce exhaustiveDemo.store [4] 2 :=
  claim_C3_exhaustive_eq_bruteforce exhaustiveDemo [4] 2 (by decide) (by decide) rfl
    (by decide)

/-- C4: `search(query_vector, k, num_probes)` returns at most k pairs,
sorted ascending by exact distance with ties broken by lowest identifier
(the `resRel` order), and every returned pair is a candidate drawn from
the posting lists of the `num_probes` nearest partitions (partition ties
broken by lowest index inside `selectProbes`). -/
theorem claim_C4_search_output (c : IVF.Collection) (q : List ℚ) (k numProbes : Nat) :
    (IVF.ivfSearch c q k numProbes).length ≤ k ∧
    List.Sorted IVF.resRel (IVF.ivfSearch c q k numProbes) ∧
    ∀ x ∈ IVF.ivfSearch c q k numProbes,
      x ∈ IVF.candidatesOf c.store c.plists (IVF.selectProbes c.centroids q numProbes) q :=
  ⟨IVF.length_topK _ _, IVF.sorted_topK _ _, IVF.mem_topK _ _⟩

/-- Concrete two-vector collection of dimension zero with its index
built from the store. -/
def searchDemo : IVF.Collection :=
  { dim := 0, store := [(1, []), (2, [])], centroids := [[]],
    plists := IVF.buildIndex [(1, []), (2, [])] [[]] }

/-- C4 (witness): output shape of a concrete search; the returned pair
(1, 0) is indeed a candidate of the probed partitions. -/
theorem claim_C4_witness :
    (IVF.ivfSearch searchDemo [] 1 1).length ≤ 1 ∧
    List.Sorted IVF.resRel (IVF.ivfSearch searchDemo [] 1 1) ∧
    ((1 : Nat), (0 : ℚ)) ∈ IVF.candidatesOf searchDemo.store searchDemo.plists
      (IVF.selectProbes searchDemo.centroids [] 1) [] :=
  ⟨(claim_C4_search_output searchDemo [] 1 1).1,
   (claim_C4_search_output searchDemo [] 1 1).2.1,
   (claim_C4_search_output searchDemo [] 1 1).2.2 (1, 0) (by decide)⟩

/-- C6: after `delete(id)` the id is absent from the Vector Store and
from every posting list, the centroids are unchanged (no retraining),
and no subsequent query — on either the IVF path or the brute-force
fallback — ever returns that id. -/
theorem claim_C6_delete_removes (c : IVF.Collection) (i : Nat) :
    (∀ e ∈ (IVF.deleteId c i).store, e.1 ≠ i) ∧
    (∀ pl ∈ (IVF.deleteId c i).plists, i ∉ pl) ∧
    (IVF.deleteId c i).centroids = c.centroids ∧
    (∀ q k np res, IVF.queryEngine (IVF.deleteId c i) q k np = .ok res →
      ∀ x ∈ res, x.1 ≠ i) := by
  refine ⟨?_, ?_, rfl, ?_⟩
  · intro e he
    have hf := List.of_mem_filter he
    simpa using hf
  · intro pl hpl hmem
    obtain ⟨pl0, -, rfl⟩ := List.mem_map.mp hpl
    have hf := List.of_mem_filter hmem
    simp at hf
  · intro q k np res hres x hx
    obtain ⟨e, he, heq⟩ := IVF.queryEngine_ok_ids _ q k np res hres x hx
    have hf := List.of_mem_filter he
    rw [← heq]
    simpa using hf

deriving instance DecidableEq for Except

/-- Concrete collection holding ids 1 and 5, from which 5 is deleted. -/
def deleteDemo : IVF.Collection :=
  { dim := 0, store := [(1, []), (5, [])], centroids := [[]], plists := [[1, 5]] }

/-- C6 (witness): deleting id 5 keeps the centroids, scrubs 5 from the
posting list, and the concrete query result [(1, 0)] avoids id 5. -/
theorem claim_C6_witness :
    (IVF.deleteId deleteDemo 5).centroids = deleteDemo.centroids ∧
    5 ∉ ([1] : List Nat) ∧
    (1 : Nat) ≠ 5 :=
  ⟨(claim_C6_delete_removes deleteDemo 5).2.2.1,
   (claim_C6_delete_removes deleteDemo 5).2.1 [1] (by decide),
   (claim_C6_delete_removes deleteDemo 5).2.2.2 [] 1 1 [(1, 0)] (by decide) (1, 0)
     (by decide)⟩

/-- C7: the Query Engine never surfaces `NotIndexed`: on an untrained
partitioner and a well-dimensioned query it transparently returns the
brute-force scan of the Vector Store, and the only error it ever returns
to the caller is `DimensionMismatch`, precisely when the query dimension
disagrees with the collection. -/
theorem claim_C7_notindexed_fallback (c : IVF.Collection) (q : List ℚ) (k np : Nat) :
    IVF.queryEngine c q k np ≠ .error .NotIndexed ∧
    (c.centroids = [] → q.length = c.dim →
      IVF.queryEngine c q k np = .ok (IVF.bruteForce c.store q k)) ∧
    (∀ e, IVF.queryEngine c q k np = .error e →
      e = .DimensionMismatch ∧ q.length ≠ c.dim) := by
  unfold IVF.queryEngine
  by_cases hdim : q.length ≠ c.dim
  · refine ⟨by simp [hdim], ?_, ?_⟩
    · intro h1 h2
      exact absurd h2 hdim
    · intro e he
      simp [hdim] at he
      exact ⟨he.symm, hdim⟩
  · by_cases hemp : c.centroids.isEmpty
    · refine ⟨by simp [hdim, hemp], fun h1 h2 => by simp [hdim, hemp], ?_⟩
      intro e he
      simp [hdim, hemp] at he
    · refine ⟨by simp [hdim, hemp], ?_, ?_⟩
      · intro hcent h2
        exact absurd (by simp [hcent] : c.centroids.isEmpty = true) (by simpa using hemp)
      · intro e he
        simp [hdim, hemp] at he

/-- Concrete untrained collection: one stored vector, no centroids. -/
def untrainedDemo : IVF.Collection :=
  { dim := 1, store := [(1, [5])], centroids := [], plists := [] }

/-- C7 (witness): on the untrained collection the engine answers with the
brute-force result instead of `NotIndexed`. -/
theorem claim_C7_witness :
    IVF.queryEngine untrainedDemo [3] 2 1 ≠ .error .NotIndexed ∧
    IVF.queryEngine untrainedDemo [3] 2 1 = .ok (IVF.bruteForce untrainedDemo.store [3] 2) :=
  ⟨(claim_C7_notindexed_fallback untrainedDemo [3] 2 1).1,
   (claim_C7_notindexed_fallback untrainedDemo [3] 2 1).2.1 rfl rfl⟩

/-- C8: each of the three service endpoints answers a failing request
with the structured error object (kind + message) produced by its
pipeline, never a crash: every request yields either an ok-response or a
structured error response, and `/count` always succeeds. -/
theorem claim_C8_structured_errors
    (pins : String → Except Service.ErrObj Int)
    (psearch : String → Except Service.ErrObj (List String))
    (n : Nat) (r : String) :
    (∀ e, pins r = .error e → Service.insertService pins r = .err e) ∧
    (∀ e, psearch r = .error e → Service.searchService psearch r = .err e) ∧
    Service.countService n r = .ok n ∧
    ((∃ v, Service.insertService pins r = .ok v) ∨
      (∃ e, Service.insertService pins r = .err e)) ∧
    ((∃ v, Service.searchService psearch r = .ok v) ∨
      (∃ e, Service.searchService psearch r = .err e)) := by
  refine ⟨?_, ?_, rfl, ?_, ?_⟩
  · intro e he
    simp [Service.insertService, Service.serveWrap, he]
  · intro e he
    simp [Service.searchService, Service.serveWrap, he]
  · cases h : pins r with
    | ok v => exact Or.inl ⟨v, by simp [Service.insertService, Service.serveWrap, h]⟩
    | error e => exact Or.inr ⟨e, by simp [Service.insertService, Service.serveWrap, h]⟩
  · cases h : psearch r with
    | ok v => exact Or.inl ⟨v, by simp [Service.searchService, Service.serveWrap, h]⟩
    | error e => exact Or.inr ⟨e, by simp [Service.searchService, Service.serveWrap, h]⟩

/-- C8 (witness): a failing insert pipeline yields the structured error
response, and `/count` responds with the count. -/
theorem claim_C8_witness :
    Service.insertService (fun _ => .error ⟨"RPCError", "collection not loaded"⟩) "req"
      = .err ⟨"RPCError", "collection not loaded"⟩ ∧
    Service.countService 42 "anything" = .ok 42 :=
  ⟨(claim_C8_structured_errors (fun _ => .error ⟨"RPCError", "collection not loaded"⟩)
      (fun _ => .ok []) 42 "req").1 ⟨"RPCError", "collection not loaded"⟩ rfl,
   (claim_C8_structured_errors (fun _ => .error ⟨"RPCError", "collection not loaded"⟩)
      (fun _ => .ok []) 42 "anything").2.2.1⟩

/-- C9: `get_qa_id` computes the identifier as `int(time.time()*10000)`
and adds the (identifier, answer) entry to the `id_answer` dictionary
before the embedding, normalization and Milvus-insert stages run, so on
every request whose later stage fails the entry has still been added
while no row reached the collection — the side-table update is not
atomic with the vector-store insert. -/
theorem claim_C9_side_table_not_atomic
    (parseQA : String → Option (String × String))
    (embed : String → Except String (List ℚ)) (normalize : List ℚ → List ℚ)
    (insertM : Int → List ℚ → Except String String)
    (now : ℚ) (text : String) (s : QAService.QAState)
    (question answer : String)
    (hparse : parseQA text = some (question, answer))
    (e : String)
    (hfail : (QAService.app_insert parseQA embed normalize insertM now text s).2
      = .error e) :
    QAService.get_qa_id parseQA now text s
      = .ok ({ s with
            id_answer := (QAService.pyInt (now * 10000), answer) :: s.id_answer },
          question, QAService.pyInt (now * 10000)) ∧
    (QAService.pyInt (now * 10000), answer)
      ∈ (QAService.app_insert parseQA embed normalize insertM now text s).1.id_answer ∧
    (QAService.app_insert parseQA embed normalize insertM now text s).1.milvus
      = s.milvus := by
  have hget : QAService.get_qa_id parseQA now text s
      = .ok ({ s with
            id_answer := (QAService.pyInt (now * 10000), answer) :: s.id_answer },
          question, QAService.pyInt (now * 10000)) := by
    unfold QAService.get_qa_id
    rw [hparse]
  refine ⟨hget, ?_, ?_⟩
  · cases hemb : embed question with
    | error e2 => simp [QAService.app_insert, hget, hemb]
    | ok vec =>
      cases hins : insertM (QAService.pyInt (now * 10000)) (normalize vec) with
      | error e3 => simp [QAService.app_insert, hget, hemb, hins]
      | ok m => simp [QAService.app_insert, hget, hemb, hins]
  · cases hemb : embed question with
    | error e2 => simp [QAService.app_insert, hget, hemb]
    | ok vec =>
      cases hins : insertM (QAService.pyInt (now * 10000)) (normalize vec) with
      | error e3 => simp [QAService.app_insert, hget, hemb, hins]
      | ok m => simp [QAService.app_insert, hget, hemb, hins] at hfail

/-- C9 (witness): with the embedding stage down, the side-table entry
(30000, "a") is present while the collection stayed empty. -/
theorem claim_C9_witness :
    (QAService.pyInt ((3 : ℚ) * 10000), "a")
      ∈ (QAService.app_insert (fun _ => some ("q", "a"))
          (fun _ => .error "embedding failed") id (fun _ _ => .ok "ok") 3 "{}"
          ⟨[], []⟩).1.id_answer ∧
    (QAService.app_insert (fun _ => some ("q", "a")) (fun _ => .error "embedding failed")
        id (fun _ _ => .ok "ok") 3 "{}" ⟨[], []⟩).1.milvus = [] :=
  ⟨(claim_C9_side_table_not_atomic (fun _ => some ("q", "a"))
      (fun _ => .error "embedding failed") id (fun _ _ => .ok "ok") 3 "{}" ⟨[], []⟩
      "q" "a" rfl "embedding failed" rfl).2.1,
   (claim_C9_side_table_not_atomic (fun _ => some ("q", "a"))
      (fun _ => .error "embedding failed") id (fun _ _ => .ok "ok") 3 "{}" ⟨[], []⟩
      "q" "a" rfl "embedding failed" rfl).2.2⟩
